import Mathlib

/-!
Shallow embedding of `halla/tools/synthetic_data.py`.

Matrices are modelled as functions `Nat → Nat → ℚ` (a matrix of shape
m × n is consulted only at indices below m and n); machine floats are
modelled by exact rationals.  All randomness consumed by the script
(`scipy.stats.ortho_group.rvs`, `np.random.choice`, `np.random.normal`)
is modelled by an explicit `RandStream` record holding the values the
successive draws return, indexed in program order; `np.random.normal
(scale=sigma)` returns `sigma * g` for a standard draw `g`, which is how
the scale parameter enters the formulas below.  Fallible code
(`raise`, `np.testing.assert_allclose`) is modelled with `Except`.
-/

namespace Halla

/-- The `--association` choices of the argument parser. -/
inductive Assoc where
  | line | parabola | log | mixed | sine | step
deriving DecidableEq

/-- The `--distribution` choices of the argument parser. -/
inductive Dist where
  | uniform | normal
deriving DecidableEq

/-- The values returned by the successive pseudorandom draws of one run:
`ortho` is the matrix drawn by `ortho_group.rvs(sample_num)`, `choice i`
is the i-th `np.random.choice(block_num)` draw (the first `x_feat_num`
are consumed for X, the next `y_feat_num` for Y), `betweenX k` /
`betweenY k` are the standard normal scalars drawn for block k,
`withinX f t` / `withinY f t` are the standard normal noise vectors
drawn for feature f, and `sign k` is block k's draw from `{-1, 1}`. -/
structure RandStream where
  ortho : Nat → Nat → ℚ
  choice : Nat → Nat
  betweenX : Nat → ℚ
  withinX : Nat → Nat → ℚ
  sign : Nat → ℚ
  betweenY : Nat → ℚ
  withinY : Nat → Nat → ℚ

/-- `blocks_size[d] += 1`: bump the d-th entry of the size list. -/
def bumpAt : List Nat → Nat → List Nat
  | [], _ => []
  | x :: xs, 0 => (x + 1) :: xs
  | x :: xs, n + 1 => x :: bumpAt xs n

/-- The `blocks_size` list after the first loop of
`div_features_into_blocks`: starting from `[0] * block_num`, each draw
bumps the chosen block's count. -/
def blocksSize (block_num : Nat) (draws : List Nat) : List Nat :=
  draws.foldl bumpAt (List.replicate block_num 0)

/-- The second loop of `div_features_into_blocks`: block i receives the
contiguous range `range(start_idx, start_idx + blocks_size[i])`. -/
def assignBlocks : List Nat → Nat → List (List Nat)
  | [], _ => []
  | size :: rest, start_idx => List.range' start_idx size :: assignBlocks rest (start_idx + size)

/-- `div_features_into_blocks(feat_num)` where `draws` are the
`np.random.choice(block_num)` values consumed, one per feature. -/
def div_features_into_blocks (block_num : Nat) (draws : List Nat) : List (List Nat) :=
  assignBlocks (blocksSize block_num draws) 0

/-- The absolute tolerance of `np.testing.assert_allclose(..., atol=1e-10)`. -/
def atol : ℚ := 1 / 10 ^ 10

/-- The relative tolerance of `np.testing.assert_allclose`: the numpy
default `rtol=1e-7`, which passing `atol` alone does not disable. -/
def rtol : ℚ := 1 / 10 ^ 7

/-- numpy's `assert_allclose` accepts `actual` against `desired` when
`|actual - desired| <= atol + rtol * |desired|`; this is that per-entry
tolerance as a function of the desired value. -/
def allcloseTol (desired : ℚ) : ℚ := atol + rtol * |desired|

/-- Entry (i, j) of `base @ base.T`: the dot product of rows i and j
over the `sample_num` columns. -/
def gram (sample_num : Nat) (base : Nat → Nat → ℚ) (i j : Nat) : ℚ :=
  ((List.range sample_num).map (fun t => base i t * base j t)).sum

/-- The `assert_allclose(test, np.eye(block_num), atol=1e-10)` check:
every entry of `base @ base.T` is within `atol + rtol * |eye entry|` of
the identity (so within `1e-10 + 1e-7` on the diagonal and `1e-10` off
it, numpy's default `rtol` being in force). -/
def gramOk (sample_num block_num : Nat) (base : Nat → Nat → ℚ) : Bool :=
  (List.range block_num).all fun i =>
    (List.range block_num).all fun j =>
      decide (|gram sample_num base i j - (if i = j then 1 else 0)| ≤
        allcloseTol (if i = j then 1 else 0))

/-- `create_base()`: take the first `block_num` rows of the drawn
orthogonal matrix and assert their Gram matrix is the identity within
`atol`; the assertion failure is modelled as an `Except.error`. -/
def create_base (sample_num block_num : Nat) (ortho : Nat → Nat → ℚ) :
    Except String (Nat → Nat → ℚ) :=
  let base : Nat → Nat → ℚ := fun i t => ortho i t
  if gramOk sample_num block_num base then Except.ok base
  else Except.error "The rows in base are not orthonormal"

/-- `abs_if_necessary(a)`: absolute value when the association is log. -/
def abs_if_necessary (association : Assoc) (a : ℚ) : ℚ :=
  if association = Assoc.log then |a| else a

/-- `M[r] = v`: overwrite row r of a matrix with the vector v. -/
def updRow (M : Nat → Nat → ℚ) (r : Nat) (v : Nat → ℚ) : Nat → Nat → ℚ :=
  fun i t => if i = r then v t else M i t

/-- `base_X = base[block_i] + noise_between * np.random.normal(scale=noise_between_std, size=1)`:
one scalar draw broadcast over the sample vector of block k. -/
def base_X (noise_between noise_between_std : ℚ) (base : Nat → Nat → ℚ)
    (s : RandStream) (k t : Nat) : ℚ :=
  base k t + noise_between * (noise_between_std * s.betweenX k)

/-- `base_Y = abs_if_necessary(base[block_i] + noise_between * np.random.normal(scale=noise_between_std, size=1))`. -/
def base_Y (association : Assoc) (noise_between noise_between_std : ℚ)
    (base : Nat → Nat → ℚ) (s : RandStream) (k t : Nat) : ℚ :=
  abs_if_necessary association (base k t + noise_between * (noise_between_std * s.betweenY k))

/-- The if/elif chain assigning `Y[feat_y]`: `cur` is the value the row
held before the chain (its zero initialization), which survives when the
association has no branch (mixed, sine, step fall through silently). -/
def y_val (association : Assoc) (lg : ℚ → ℚ) (sgn cur bY : ℚ) : ℚ :=
  match association with
  | Assoc.line => sgn * bY
  | Assoc.parabola => sgn * bY * bY
  | Assoc.log => lg bY
  | _ => cur

/-- The loop filling the X rows: for each block k in order, every
feature of `x_assoc[k]` receives `base_X + noise_within * np.random.normal(scale=noise_within_std, size=sample_num)`. -/
def gen_X (block_num : Nat) (noise_within noise_within_std noise_between noise_between_std : ℚ)
    (base : Nat → Nat → ℚ) (x_assoc : List (List Nat)) (s : RandStream) : Nat → Nat → ℚ :=
  (List.range block_num).foldl
    (fun X k =>
      (x_assoc.getD k []).foldl
        (fun X feat => updRow X feat
          (fun t => base_X noise_between noise_between_std base s k t
            + noise_within * (noise_within_std * s.withinX feat t))) X)
    (fun _ _ => 0)

/-- The loop filling the Y rows: for each block k, every feature of
`y_assoc[k]` receives the shape-transformed `base_Y` (or keeps its
current value when the association has no branch) plus within noise. -/
def gen_Y (block_num : Nat) (association : Assoc) (lg : ℚ → ℚ)
    (noise_within noise_within_std noise_between noise_between_std : ℚ)
    (base : Nat → Nat → ℚ) (y_assoc : List (List Nat)) (s : RandStream) : Nat → Nat → ℚ :=
  (List.range block_num).foldl
    (fun Y k =>
      (y_assoc.getD k []).foldl
        (fun Y feat => updRow Y feat
          (fun t => y_val association lg (s.sign k) (Y feat t)
              (base_Y association noise_between noise_between_std base s k t)
            + noise_within * (noise_within_std * s.withinY feat t))) Y)
    (fun _ _ => 0)

/-- The loop filling A: for each block k, `A[i][j] = 1` for every pair
`(i, j)` in `itertools.product(x_assoc[k], y_assoc[k])`. -/
def gen_A (block_num : Nat) (x_assoc y_assoc : List (List Nat)) : Nat → Nat → ℚ :=
  (List.range block_num).foldl
    (fun A k =>
      (((x_assoc.getD k []).product (y_assoc.getD k [])).foldl
        (fun A p => fun i j => if i = p.1 ∧ j = p.2 then 1 else A i j) A))
    (fun _ _ => 0)

/-- The first `x_feat_num` values of the `np.random.choice` stream,
consumed by `div_features_into_blocks(x_feat_num)`. -/
def xDraws (s : RandStream) (x_feat_num : Nat) : List Nat :=
  (List.range x_feat_num).map s.choice

/-- The next `y_feat_num` values of the `np.random.choice` stream,
consumed by `div_features_into_blocks(y_feat_num)`. -/
def yDraws (s : RandStream) (x_feat_num y_feat_num : Nat) : List Nat :=
  (List.range y_feat_num).map (fun i => s.choice (x_feat_num + i))

/-- `run_data_generator`: create and check the base, partition the X and
Y features into blocks, and build X, Y and A.  The single block loop of
the source updates the three arrays independently, so it is modelled by
the three folds `gen_X`, `gen_Y`, `gen_A` over the same block range.
`dist`, `noise_within_std` and `noise_between_std` are the parameters of
the source signature; `lg` models `np.log`. -/
def run_data_generator (sample_num : Nat) (features_num : Nat × Nat) (block_num : Nat)
    (association : Assoc) (dist : Dist)
    (noise_within noise_between noise_within_std noise_between_std : ℚ)
    (lg : ℚ → ℚ) (s : RandStream) :
    Except String ((Nat → Nat → ℚ) × (Nat → Nat → ℚ) × (Nat → Nat → ℚ)) :=
  match create_base sample_num block_num s.ortho with
  | Except.error e => Except.error e
  | Except.ok base0 =>
    let base : Nat → Nat → ℚ := fun i t => abs_if_necessary association (base0 i t)
    let x_assoc := div_features_into_blocks block_num (xDraws s features_num.1)
    let y_assoc := div_features_into_blocks block_num (yDraws s features_num.1 features_num.2)
    Except.ok
      (gen_X block_num noise_within noise_within_std noise_between noise_between_std base x_assoc s,
       gen_Y block_num association lg noise_within noise_within_std noise_between noise_between_std base y_assoc s,
       gen_A block_num x_assoc y_assoc)

/-- The X component of a successful run (zero matrix on error). -/
def getX (r : Except String ((Nat → Nat → ℚ) × (Nat → Nat → ℚ) × (Nat → Nat → ℚ))) :
    Nat → Nat → ℚ :=
  match r with
  | Except.ok out => out.1
  | Except.error _ => fun _ _ => 0

/-- The Y component of a successful run (zero matrix on error). -/
def getY (r : Except String ((Nat → Nat → ℚ) × (Nat → Nat → ℚ) × (Nat → Nat → ℚ))) :
    Nat → Nat → ℚ :=
  match r with
  | Except.ok out => out.2.1
  | Except.error _ => fun _ _ => 0

/-- The A component of a successful run (zero matrix on error). -/
def getA (r : Except String ((Nat → Nat → ℚ) × (Nat → Nat → ℚ) × (Nat → Nat → ℚ))) :
    Nat → Nat → ℚ :=
  match r with
  | Except.ok out => out.2.2
  | Except.error _ => fun _ _ => 0

/-- Whether a run returned data rather than an error. -/
def emitted (r : Except String ((Nat → Nat → ℚ) × (Nat → Nat → ℚ) × (Nat → Nat → ℚ))) : Bool :=
  match r with
  | Except.ok _ => true
  | Except.error _ => false

/-- The validation checks of `parse_argument` on an explicitly supplied
block count (integer counts, rational noise levels), returning the first
`ValueError` raised, in source order. -/
def parse_check (samples xfeatures yfeatures blocks : Int)
    (noise_within noise_between : ℚ) : Except String Unit :=
  if samples ≤ 0 then Except.error "# samples must be > 0"
  else if xfeatures ≤ 0 ∨ yfeatures ≤ 0 then Except.error "# features must be > 0"
  else if ¬(blocks > 0 ∧ blocks ≤ min xfeatures yfeatures) then
    Except.error "# blocks is invalid; must be [1..min(xfeatures, yfeatures)]"
  else if noise_between < 0 ∨ noise_between > 1 ∨ noise_within < 0 ∨ noise_within > 1 then
    Except.error "Noise within/between must be [0..1]"
  else Except.ok ()

/-- The default block count `min(5, min(xfeatures, yfeatures) / 2)`
assigned when `--blocks` is omitted; `/` is Python 3 true division, so
the value is an exact rational, not a floored integer. -/
def default_blocks (xfeatures yfeatures : Int) : ℚ :=
  min 5 ((min xfeatures yfeatures : ℚ) / 2)

/-- Modelled from the spec: section 4.1 prescribes the default block
count `min(5, floor(min(x_feature_num, y_feature_num) / 2))`; integer
division on `Int` is the floor for the positive counts involved.  This
definition follows the spec words, for comparison with `default_blocks`
above, which is translated from the source. -/
def spec_default_blocks (xfeatures yfeatures : Int) : Int :=
  min 5 (min xfeatures yfeatures / 2)

/-- Whether the 2 × 2 square of A with top-left corner (r, c) is all ones. -/
def allOnesSquare (A : Nat → Nat → ℚ) (r c : Nat) : Bool :=
  (List.range 2).all fun di => (List.range 2).all fun dj => decide (A (r + di) (c + dj) = 1)

/-- Whether (i, j) lies inside the 2 × 2 square with top-left corner (r, c). -/
def inSquare (r c i j : Nat) : Bool :=
  decide (r ≤ i) && decide (i < r + 2) && decide (c ≤ j) && decide (j < c + 2)

/-- Whether a 4 × 4 matrix consists of exactly two all-ones 2 × 2
sub-blocks with zeros everywhere else: two distinct all-ones squares
exist and every 1-entry lies in one of them. -/
def twoBlockPattern (A : Nat → Nat → ℚ) : Bool :=
  (List.range 4).any fun r1 => (List.range 4).any fun c1 =>
    (List.range 4).any fun r2 => (List.range 4).any fun c2 =>
      decide (¬(r1 = r2 ∧ c1 = c2)) && allOnesSquare A r1 c1 && allOnesSquare A r2 c2 &&
        ((List.range 4).all fun i => (List.range 4).all fun j =>
          !decide (A i j = 1) || inSquare r1 c1 i j || inSquare r2 c2 i j)

/-- A concrete random stream: the orthogonal draw is the all-ones
matrix (whose first 1 × 1 block is orthonormal), every block choice
lands on block 0, all noise draws are zero, every sign draw is +1. -/
def sOnes : RandStream where
  ortho := fun _ _ => 1
  choice := fun _ => 0
  betweenX := fun _ => 0
  withinX := fun _ _ => 0
  sign := fun _ => 1
  betweenY := fun _ => 0
  withinY := fun _ _ => 0

/-- A concrete random stream whose orthogonal draw is the zero matrix,
so the orthonormality assertion fails for any positive block count. -/
def sBad : RandStream :=
  { sOnes with ortho := fun _ _ => 0 }

/-- A stream whose 1 × 1 orthogonal draw is 1 + 5e-9: its Gram entry
(1 + 5e-9)^2 deviates from 1 by about 1e-8 — beyond the claimed 1e-10
absolute tolerance, yet within the code's diagonal tolerance
1e-10 + 1e-7, so the assertion passes and generation continues. -/
def sNear : RandStream :=
  { sOnes with ortho := fun _ _ => 1 + 5 / 10 ^ 9 }

/-- First two rows of a sample orthogonal draw on six samples:
(3/5, 4/5, 0, 0, 0, 0) and (-4/5, 3/5, 0, 0, 0, 0), exactly orthonormal. -/
def orthoTwo : Nat → Nat → ℚ := fun i t =>
  if i = 0 then (if t = 0 then 3 / 5 else if t = 1 then 4 / 5 else 0)
  else if i = 1 then (if t = 0 then -4 / 5 else if t = 1 then 3 / 5 else 0)
  else 0

/-- A stream for the samples=6, blocks=2 scenario in which every block
choice lands on block 0, leaving block 1 empty on both sides. -/
def sUnbal : RandStream :=
  { sOnes with ortho := orthoTwo }

/-- A stream for the samples=6, blocks=2 scenario whose block choices
assign exactly two X-features and two Y-features to each block
(draws 0, 0, 1, 1 for X and again 0, 0, 1, 1 for Y). -/
def sBal : RandStream :=
  { sOnes with ortho := orthoTwo, choice := fun i => i % 4 / 2 }

theorem length_bumpAt (l : List Nat) (d : Nat) : (bumpAt l d).length = l.length := by
  induction l generalizing d with
  | nil => rfl
  | cons x xs ih =>
    cases d with
    | zero => rfl
    | succ n => simp [bumpAt, ih]

theorem sum_bumpAt (l : List Nat) (d : Nat) (h : d < l.length) :
    (bumpAt l d).sum = l.sum + 1 := by
  induction l generalizing d with
  | nil => simp at h
  | cons x xs ih =>
    cases d with
    | zero => simp [bumpAt]; omega
    | succ n =>
      have hn : n < xs.length := by simpa using h
      simp [bumpAt, ih n hn]; omega

theorem length_foldl_bumpAt (draws : List Nat) :
    ∀ init : List Nat, (draws.foldl bumpAt init).length = init.length := by
  induction draws with
  | nil => intro init; rfl
  | cons d ds ih => intro init; rw [List.foldl_cons, ih, length_bumpAt]

theorem sum_foldl_bumpAt (draws : List Nat) :
    ∀ init : List Nat, (∀ d ∈ draws, d < init.length) →
      (draws.foldl bumpAt init).sum = init.sum + draws.length := by
  induction draws with
  | nil => intro init _; simp
  | cons d ds ih =>
    intro init h
    have hd : d < init.length := h d (List.mem_cons_self d ds)
    have hrest : ∀ e ∈ ds, e < (bumpAt init d).length := by
      intro e he; rw [length_bumpAt]; exact h e (List.mem_cons_of_mem d he)
    rw [List.foldl_cons, ih (bumpAt init d) hrest, sum_bumpAt init d hd]
    simp; omega

theorem blocksSize_length (block_num : Nat) (draws : List Nat) :
    (blocksSize block_num draws).length = block_num := by
  rw [blocksSize, length_foldl_bumpAt, List.length_replicate]

theorem blocksSize_sum (block_num : Nat) (draws : List Nat)
    (h : ∀ d ∈ draws, d < block_num) :
    (blocksSize block_num draws).sum = draws.length := by
  rw [blocksSize, sum_foldl_bumpAt draws (List.replicate block_num 0)
    (by simpa using h)]
  simp

theorem assignBlocks_length (sizes : List Nat) :
    ∀ start, (assignBlocks sizes start).length = sizes.length := by
  induction sizes with
  | nil => intro start; rfl
  | cons a rest ih => intro start; simp [assignBlocks, ih]

theorem assignBlocks_join (sizes : List Nat) :
    ∀ start, (assignBlocks sizes start).flatten = List.range' start sizes.sum := by
  induction sizes with
  | nil => intro start; simp [assignBlocks]
  | cons a rest ih =>
    intro start
    simp only [assignBlocks, List.flatten_cons, ih (start + a), List.sum_cons]
    simpa [Nat.add_comm] using List.range'_append_1 start a rest.sum

theorem assignBlocks_getD (sizes : List Nat) :
    ∀ start i, i < sizes.length →
      (assignBlocks sizes start).getD i [] =
        List.range' (start + (sizes.take i).sum) (sizes.getD i 0) := by
  induction sizes with
  | nil => intro start i hi; simp at hi
  | cons a rest ih =>
    intro start i hi
    cases i with
    | zero => simp [assignBlocks]
    | succ n =>
      have hn : n < rest.length := by simpa using hi
      simp only [assignBlocks, List.getD_cons_succ, List.take_succ_cons, List.sum_cons,
        ih (start + a) n hn]
      ring_nf

/-- C1: for every feature count (the length of the draw list, one draw
per feature) and every block count at least 1, with every draw a valid
block id, `div_features_into_blocks` returns one list per block whose
concatenation in block order is exactly `0, …, feature_num - 1` (so
every index appears in exactly one block's list), and block i's list is
the contiguous increasing range that starts right after the indices
consumed by blocks 0, …, i-1 and has length `blocks_size[i]`. -/
theorem div_features_into_blocks_partition (block_num : Nat) (draws : List Nat)
    (hb : 1 ≤ block_num) (hd : ∀ d ∈ draws, d < block_num) :
    (div_features_into_blocks block_num draws).length = block_num ∧
    (div_features_into_blocks block_num draws).flatten = List.range draws.length ∧
    ∀ i < block_num,
      (div_features_into_blocks block_num draws).getD i [] =
        List.range' (((blocksSize block_num draws).take i).sum)
          ((blocksSize block_num draws).getD i 0) := by
  refine ⟨?_, ?_, ?_⟩
  · rw [div_features_into_blocks, assignBlocks_length, blocksSize_length]
  · rw [div_features_into_blocks, assignBlocks_join, blocksSize_sum block_num draws hd,
      List.range_eq_range']
  · intro i hi
    have hlen : i < (blocksSize block_num draws).length := by
      rw [blocksSize_length]; exact hi
    have h := assignBlocks_getD (blocksSize block_num draws) 0 i hlen
    simpa using h

/-- Witness for C1 at block_num = 2 and draws [1, 0, 1]: the hypotheses
hold and the two blocks' lists concatenate to 0, 1, 2. -/
theorem div_features_into_blocks_partition_witness :
    (1 ≤ 2 ∧ ∀ d ∈ [1, 0, 1], d < 2) ∧
    (div_features_into_blocks 2 [1, 0, 1]).flatten = List.range 3 :=
  ⟨⟨by decide, by decide⟩,
    (div_features_into_blocks_partition 2 [1, 0, 1] (by decide) (by decide)).2.1⟩

theorem foldl_setOnes_eval (ps : List (Nat × Nat)) :
    ∀ (A : Nat → Nat → ℚ) (i j : Nat),
      (ps.foldl (fun A p => fun i j => if i = p.1 ∧ j = p.2 then 1 else A i j) A) i j =
        if (i, j) ∈ ps then 1 else A i j := by
  induction ps with
  | nil => intro A i j; simp
  | cons p ps ih =>
    intro A i j
    obtain ⟨a, b⟩ := p
    rw [List.foldl_cons, ih]
    simp only [List.mem_cons]
    by_cases hm : (i, j) ∈ ps
    · simp [hm]
    · simp only [hm, or_false]
      by_cases he : i = a ∧ j = b
      · simp [he, Prod.mk.injEq]
      · simp [he, Prod.mk.injEq]

theorem gen_A_foldl_eval (x_assoc y_assoc : List (List Nat)) (l : List Nat) :
    ∀ (A : Nat → Nat → ℚ) (i j : Nat),
      (l.foldl (fun A k =>
          (((x_assoc.getD k []).product (y_assoc.getD k [])).foldl
            (fun A p => fun i j => if i = p.1 ∧ j = p.2 then 1 else A i j) A)) A) i j =
        if ∃ k ∈ l, i ∈ x_assoc.getD k [] ∧ j ∈ y_assoc.getD k [] then 1 else A i j := by
  induction l with
  | nil => intro A i j; simp
  | cons k ks ih =>
    intro A i j
    rw [List.foldl_cons, ih, foldl_setOnes_eval]
    by_cases hks : ∃ q ∈ ks, i ∈ x_assoc.getD q [] ∧ j ∈ y_assoc.getD q []
    · rw [if_pos hks, if_pos]
      obtain ⟨q, hq, hij⟩ := hks
      exact ⟨q, List.mem_cons_of_mem k hq, hij⟩
    · rw [if_neg hks]
      by_cases hk : i ∈ x_assoc.getD k [] ∧ j ∈ y_assoc.getD k []
      · rw [if_pos (List.pair_mem_product.mpr hk), if_pos ⟨k, List.mem_cons_self k ks, hk⟩]
      · rw [if_neg fun hmem => hk (List.pair_mem_product.mp hmem), if_neg]
        intro ⟨q, hq, hij⟩
        rcases List.mem_cons.mp hq with hqk | hqks
        · exact hk (hqk ▸ hij)
        · exact hks ⟨q, hqks, hij⟩

/-- C2: whenever `run_data_generator` returns (X, Y, A), entry A[i][j]
is 1 exactly when some block k of the two partitions (the first
`x_feat_num` choice draws partition X, the next `y_feat_num` partition
Y) contains feature i on the X side and feature j on the Y side, and 0
for every other pair. -/
theorem run_data_generator_A_characterization
    (sample_num x_feat_num y_feat_num block_num : Nat) (association : Assoc) (dist : Dist)
    (nw nb nws nbs : ℚ) (lg : ℚ → ℚ) (s : RandStream) (X Y A : Nat → Nat → ℚ)
    (h : run_data_generator sample_num (x_feat_num, y_feat_num) block_num association dist
        nw nb nws nbs lg s = Except.ok (X, Y, A)) :
    ∀ i j, A i j =
      if ∃ k ∈ List.range block_num,
          i ∈ (div_features_into_blocks block_num (xDraws s x_feat_num)).getD k [] ∧
          j ∈ (div_features_into_blocks block_num (yDraws s x_feat_num y_feat_num)).getD k []
      then 1 else 0 := by
  intro i j
  rw [run_data_generator] at h
  cases hcb : create_base sample_num block_num s.ortho with
  | error e => rw [hcb] at h; exact absurd h (by simp)
  | ok base0 =>
    rw [hcb] at h
    simp only [Except.ok.injEq, Prod.mk.injEq] at h
    rw [← h.2.2, gen_A]
    rw [gen_A_foldl_eval]

theorem gramOk_sOnes : gramOk 1 1 (fun i t => sOnes.ortho i t) = true := by
  simp only [gramOk, gram, List.range_succ, List.range_zero, List.nil_append, List.all_cons,
    List.all_nil, List.map_cons, List.map_nil, List.sum_cons, List.sum_nil, Bool.and_true,
    decide_eq_true_eq, sOnes]
  norm_num [allcloseTol, atol, rtol]

theorem create_base_sOnes : create_base 1 1 sOnes.ortho = Except.ok (fun i t => sOnes.ortho i t) := by
  unfold create_base
  rw [if_pos gramOk_sOnes]

theorem run_sOnes_eval (association : Assoc) :
    run_data_generator 1 (1, 1) 1 association Dist.uniform 0 0 0 0 (fun q => q) sOnes =
      Except.ok
        (gen_X 1 0 0 0 0 (fun i t => abs_if_necessary association (sOnes.ortho i t))
          (div_features_into_blocks 1 (xDraws sOnes 1)) sOnes,
         gen_Y 1 association (fun q => q) 0 0 0 0
          (fun i t => abs_if_necessary association (sOnes.ortho i t))
          (div_features_into_blocks 1 (yDraws sOnes 1 1)) sOnes,
         gen_A 1 (div_features_into_blocks 1 (xDraws sOnes 1))
          (div_features_into_blocks 1 (yDraws sOnes 1 1))) := by
  unfold run_data_generator
  rw [create_base_sOnes]

/-- Witness for C2 at a concrete one-block run: the hypothesis of
`run_data_generator_A_characterization` is discharged by evaluating the
run, and the single entry of A evaluates to 1. -/
theorem run_data_generator_A_characterization_witness :
    gen_A 1 (div_features_into_blocks 1 (xDraws sOnes 1))
      (div_features_into_blocks 1 (yDraws sOnes 1 1)) 0 0 = 1 := by
  have h := run_data_generator_A_characterization 1 1 1 1 Assoc.line Dist.uniform 0 0 0 0
    (fun q => q) sOnes
    (gen_X 1 0 0 0 0 (fun i t => abs_if_necessary Assoc.line (sOnes.ortho i t))
      (div_features_into_blocks 1 (xDraws sOnes 1)) sOnes)
    (gen_Y 1 Assoc.line (fun q => q) 0 0 0 0
      (fun i t => abs_if_necessary Assoc.line (sOnes.ortho i t))
      (div_features_into_blocks 1 (yDraws sOnes 1 1)) sOnes)
    (gen_A 1 (div_features_into_blocks 1 (xDraws sOnes 1))
      (div_features_into_blocks 1 (yDraws sOnes 1 1)))
    (run_sOnes_eval Assoc.line) 0 0
  rw [h]
  decide

theorem gramOk_iff (sample_num block_num : Nat) (base : Nat → Nat → ℚ) :
    gramOk sample_num block_num base = true ↔
      ∀ i < block_num, ∀ j < block_num,
        |gram sample_num base i j - (if i = j then 1 else 0)| ≤
          allcloseTol (if i = j then 1 else 0) := by
  simp [gramOk, List.all_eq_true, List.mem_range]

theorem gramOk_sNear : gramOk 1 1 (fun i t => sNear.ortho i t) = true := by
  simp only [gramOk, gram, List.range_succ, List.range_zero, List.nil_append, List.all_cons,
    List.all_nil, List.map_cons, List.map_nil, List.sum_cons, List.sum_nil, Bool.and_true,
    decide_eq_true_eq, sNear, sOnes]
  norm_num [allcloseTol, atol, rtol, abs_le]

theorem create_base_sNear :
    create_base 1 1 sNear.ortho = Except.ok (fun i t => sNear.ortho i t) := by
  unfold create_base
  rw [if_pos gramOk_sNear]

/-- C3 counterexample: a 1 × 1 orthogonal draw of 1 + 5e-9 has Gram
entry (1 + 5e-9)^2, which deviates from the identity by more than the
claimed 1e-10 absolute tolerance, yet `assert_allclose`'s real
per-entry tolerance `atol + rtol * |desired|` — numpy's default
rtol=1e-7 is not disabled by passing atol — accepts it on the
diagonal, so the run emits data instead of failing. -/
theorem run_gram_tolerance_counterexample :
    emitted (run_data_generator 1 (1, 1) 1 Assoc.line Dist.uniform 0 0 0 0 (fun q => q) sNear)
        = true ∧
    atol < |gram 1 (fun i t => sNear.ortho i t) 0 0 - 1| := by
  constructor
  · unfold run_data_generator
    rw [create_base_sNear]
    rfl
  · simp only [gram, List.range_succ, List.range_zero, List.nil_append, List.map_cons,
      List.map_nil, List.sum_cons, List.sum_nil, sNear, sOnes]
    rw [abs_of_nonneg (by norm_num)]
    norm_num [atol]

/-- C3 (amended): any base matrix `create_base` returns satisfies the
`assert_allclose` Gram-identity tolerance `atol + rtol * |eye entry|`
— 1e-10 off the diagonal, 1e-10 + 1e-7 on it, numpy's default
rtol=1e-7 being in force — (first conjunct), and whenever some entry
of the Gram matrix of the drawn rows deviates from the identity by
more than that tolerance, the whole generation run fails with the
orthonormality assertion error instead of producing data (second
conjunct), for every association type. -/
theorem run_data_generator_gram_invariant
    (sample_num x_feat_num y_feat_num block_num : Nat) (association : Assoc) (dist : Dist)
    (nw nb nws nbs : ℚ) (lg : ℚ → ℚ) (s : RandStream) :
    (∀ base0, create_base sample_num block_num s.ortho = Except.ok base0 →
       ∀ i < block_num, ∀ j < block_num,
         |gram sample_num base0 i j - (if i = j then 1 else 0)| ≤
           allcloseTol (if i = j then 1 else 0)) ∧
    ((∃ i < block_num, ∃ j < block_num,
        allcloseTol (if i = j then 1 else 0) <
          |gram sample_num s.ortho i j - (if i = j then 1 else 0)|) →
      run_data_generator sample_num (x_feat_num, y_feat_num) block_num association dist
          nw nb nws nbs lg s =
        Except.error "The rows in base are not orthonormal") := by
  have hbad : (∃ i < block_num, ∃ j < block_num,
      allcloseTol (if i = j then 1 else 0) <
        |gram sample_num s.ortho i j - (if i = j then 1 else 0)|) →
      create_base sample_num block_num s.ortho =
        Except.error "The rows in base are not orthonormal" := by
    intro ⟨i, hi, j, hj, hij⟩
    unfold create_base
    rw [if_neg]
    intro hok
    exact absurd (((gramOk_iff sample_num block_num _).mp hok) i hi j hj) (not_le.mpr hij)
  constructor
  · intro base0 h i hi j hj
    unfold create_base at h
    by_cases hok : gramOk sample_num block_num (fun i t => s.ortho i t) = true
    · rw [if_pos hok] at h
      have hb : (fun i t => s.ortho i t) = base0 := by
        simpa using h
      rw [← hb]
      exact (gramOk_iff sample_num block_num _).mp hok i hi j hj
    · rw [if_neg hok] at h
      exact absurd h (by simp)
  · intro hex
    unfold run_data_generator
    rw [hbad hex]

/-- Witness for the amended C3: at a 1 × 1 all-ones draw the returned
base passes the diagonal tolerance, and at the zero draw the run fails
with the assertion error. -/
theorem run_data_generator_gram_invariant_witness :
    |gram 1 (fun i t => sOnes.ortho i t) 0 0 - 1| ≤ allcloseTol 1 ∧
    run_data_generator 1 (1, 1) 1 Assoc.line Dist.uniform 0 0 0 0 (fun q => q) sBad =
      Except.error "The rows in base are not orthonormal" := by
  constructor
  · have h := (run_data_generator_gram_invariant 1 1 1 1 Assoc.line Dist.uniform 0 0 0 0
      (fun q => q) sOnes).1 (fun i t => sOnes.ortho i t) create_base_sOnes 0 (by decide) 0
      (by decide)
    simpa using h
  · refine (run_data_generator_gram_invariant 1 1 1 1 Assoc.line Dist.uniform 0 0 0 0
      (fun q => q) sBad).2 ⟨0, by decide, 0, by decide, ?_⟩
    simp only [gram, List.range_succ, List.range_zero, List.nil_append, List.map_cons,
      List.map_nil, List.sum_cons, List.sum_nil, sBad, sOnes]
    norm_num [allcloseTol, atol, rtol, abs_le]

/-- C4 (divergence witness): with association sine, noiseless
parameters and a valid orthogonal draw, `run_data_generator` returns
data instead of failing: the run emits a triple, and the Y row it emits
is zero because the if/elif chain has no sine branch and the zero
initialization survives.  The claim says such a run must fail fast with
an unsupported-association error. -/
theorem run_data_generator_sine_emits :
    emitted (run_data_generator 1 (1, 1) 1 Assoc.sine Dist.uniform 0 0 0 0 (fun q => q) sOnes)
        = true ∧
    getY (run_data_generator 1 (1, 1) 1 Assoc.sine Dist.uniform 0 0 0 0 (fun q => q) sOnes) 0 0
        = 0 := by
  rw [run_sOnes_eval Assoc.sine]
  refine ⟨rfl, ?_⟩
  have hy : div_features_into_blocks 1 (yDraws sOnes 1 1) = [[0]] := by decide
  simp [getY, gen_Y, hy, updRow, y_val]
  rfl

theorem fillRows_eval (v : Nat → Nat → ℚ) :
    ∀ (feats : List Nat) (M : Nat → Nat → ℚ) (i t : Nat),
      (feats.foldl (fun M f => updRow M f (v f)) M) i t =
        if i ∈ feats then v i t else M i t := by
  intro feats
  induction feats with
  | nil => intro M i t; simp
  | cons f fs ih =>
    intro M i t
    rw [List.foldl_cons, ih]
    by_cases hm : i ∈ fs
    · simp [hm]
    · by_cases he : i = f
      · simp [hm, he, updRow]
      · simp [hm, he, updRow]

theorem foldBlocks_eval_not_mem (assocL : List (List Nat))
    (g : (Nat → Nat → ℚ) → Nat → (Nat → Nat → ℚ))
    (H1 : ∀ M k i t, i ∉ assocL.getD k [] → g M k i t = M i t) :
    ∀ (l : List Nat) (M : Nat → Nat → ℚ) (i t : Nat),
      (∀ k ∈ l, i ∉ assocL.getD k []) → (l.foldl g M) i t = M i t := by
  intro l
  induction l with
  | nil => intro M i t _; rfl
  | cons k ks ih =>
    intro M i t h
    rw [List.foldl_cons, ih (g M k) i t (fun q hq => h q (List.mem_cons_of_mem k hq)),
      H1 M k i t (h k (List.mem_cons_self k ks))]

theorem foldBlocks_eval_mem (assocL : List (List Nat))
    (g : (Nat → Nat → ℚ) → Nat → (Nat → Nat → ℚ))
    (w : Nat → Nat → Nat → ℚ)
    (H1 : ∀ M k i t, i ∉ assocL.getD k [] → g M k i t = M i t)
    (H2 : ∀ M k i t, i ∈ assocL.getD k [] → g M k i t = w k i t) :
    ∀ (l : List Nat) (M : Nat → Nat → ℚ) (i t k₀ : Nat),
      k₀ ∈ l → i ∈ assocL.getD k₀ [] →
      (∀ k ∈ l, i ∈ assocL.getD k [] → k = k₀) →
      (l.foldl g M) i t = w k₀ i t := by
  intro l
  induction l with
  | nil => intro M i t k₀ hk₀; simp at hk₀
  | cons k ks ih =>
    intro M i t k₀ hk₀ hmem huniq
    rw [List.foldl_cons]
    by_cases hex : ∃ q ∈ ks, i ∈ assocL.getD q []
    · obtain ⟨q, hq, hiq⟩ := hex
      have hqk₀ : q = k₀ := huniq q (List.mem_cons_of_mem k hq) hiq
      exact ih (g M k) i t k₀ (hqk₀ ▸ hq) hmem
        (fun r hr hir => huniq r (List.mem_cons_of_mem k hr) hir)
    · push_neg at hex
      rw [foldBlocks_eval_not_mem assocL g H1 ks (g M k) i t hex]
      have hkk₀ : k = k₀ := by
        rcases List.mem_cons.mp hk₀ with h | h
        · exact h.symm
        · exact absurd hmem (hex k₀ h)
      rw [hkk₀]
      exact H2 M k₀ i t hmem

theorem gen_X_eval_mem (block_num : Nat) (nw nws nb nbs : ℚ) (base : Nat → Nat → ℚ)
    (x_assoc : List (List Nat)) (s : RandStream) (i t k₀ : Nat)
    (hk₀ : k₀ ∈ List.range block_num) (hmem : i ∈ x_assoc.getD k₀ [])
    (huniq : ∀ k ∈ List.range block_num, i ∈ x_assoc.getD k [] → k = k₀) :
    gen_X block_num nw nws nb nbs base x_assoc s i t =
      base_X nb nbs base s k₀ t + nw * (nws * s.withinX i t) := by
  unfold gen_X
  exact foldBlocks_eval_mem x_assoc _
    (fun k f u => base_X nb nbs base s k u + nw * (nws * s.withinX f u))
    (fun M k a b hnot => (fillRows_eval _ _ M a b).trans (if_neg hnot))
    (fun M k a b hm => (fillRows_eval _ _ M a b).trans (if_pos hm))
    (List.range block_num) _ i t k₀ hk₀ hmem huniq

theorem y_val_line (lg : ℚ → ℚ) (sgn cur bY : ℚ) :
    y_val Assoc.line lg sgn cur bY = sgn * bY := rfl

theorem gen_Y_line_eval_mem (block_num : Nat) (lg : ℚ → ℚ) (nw nws nb nbs : ℚ)
    (base : Nat → Nat → ℚ) (y_assoc : List (List Nat)) (s : RandStream) (i t k₀ : Nat)
    (hk₀ : k₀ ∈ List.range block_num) (hmem : i ∈ y_assoc.getD k₀ [])
    (huniq : ∀ k ∈ List.range block_num, i ∈ y_assoc.getD k [] → k = k₀) :
    gen_Y block_num Assoc.line lg nw nws nb nbs base y_assoc s i t =
      s.sign k₀ * base_Y Assoc.line nb nbs base s k₀ t + nw * (nws * s.withinY i t) := by
  unfold gen_Y
  simp only [y_val_line]
  exact foldBlocks_eval_mem y_assoc _
    (fun k f u => s.sign k * base_Y Assoc.line nb nbs base s k u + nw * (nws * s.withinY f u))
    (fun M k a b hnot => (fillRows_eval _ _ M a b).trans (if_neg hnot))
    (fun M k a b hm => (fillRows_eval _ _ M a b).trans (if_pos hm))
    (List.range block_num) _ i t k₀ hk₀ hmem huniq

theorem gramOk_sUnbal : gramOk 6 2 (fun i t => sUnbal.ortho i t) = true := by
  have h6 : List.range 6 = [0, 1, 2, 3, 4, 5] := by decide
  have h2 : List.range 2 = [0, 1] := by decide
  simp only [gramOk, gram, h6, h2, List.all_cons, List.all_nil, List.map_cons, List.map_nil,
    List.sum_cons, List.sum_nil, Bool.and_true, Bool.and_eq_true, decide_eq_true_eq]
  norm_num [sUnbal, sOnes, orthoTwo, allcloseTol, atol, rtol, abs_le]

theorem create_base_sUnbal :
    create_base 6 2 sUnbal.ortho = Except.ok (fun i t => sUnbal.ortho i t) := by
  unfold create_base
  rw [if_pos gramOk_sUnbal]

theorem run_sUnbal_eval :
    run_data_generator 6 (4, 4) 2 Assoc.line Dist.uniform 0 0 0 0 (fun q => q) sUnbal =
      Except.ok
        (gen_X 2 0 0 0 0 (fun i t => abs_if_necessary Assoc.line (sUnbal.ortho i t))
          (div_features_into_blocks 2 (xDraws sUnbal 4)) sUnbal,
         gen_Y 2 Assoc.line (fun q => q) 0 0 0 0
          (fun i t => abs_if_necessary Assoc.line (sUnbal.ortho i t))
          (div_features_into_blocks 2 (yDraws sUnbal 4 4)) sUnbal,
         gen_A 2 (div_features_into_blocks 2 (xDraws sUnbal 4))
          (div_features_into_blocks 2 (yDraws sUnbal 4 4))) := by
  unfold run_data_generator
  rw [create_base_sUnbal]

/-- C5 counterexample: with the scenario parameters (samples=6,
xfeatures=4, yfeatures=4, blocks=2, association line, zero noise) and a
run whose eight block-choice draws all land on block 0 — a possible
outcome of `np.random.choice(2)` — the generator returns data whose A
is the all-ones 4 × 4 matrix (all four X-features and all four
Y-features share block 0), which is not two 2 × 2 all-ones sub-blocks
with zeros elsewhere; the claim asserts that shape for every run. -/
theorem run_line_scenario_counterexample :
    emitted (run_data_generator 6 (4, 4) 2 Assoc.line Dist.uniform 0 0 0 0 (fun q => q) sUnbal)
        = true ∧
    twoBlockPattern
      (getA (run_data_generator 6 (4, 4) 2 Assoc.line Dist.uniform 0 0 0 0 (fun q => q) sUnbal))
        = false := by
  rw [run_sUnbal_eval]
  refine ⟨rfl, ?_⟩
  have hxa : div_features_into_blocks 2 (xDraws sUnbal 4) = [[0, 1, 2, 3], []] := by decide
  have hya : div_features_into_blocks 2 (yDraws sUnbal 4 4) = [[0, 1, 2, 3], []] := by decide
  show twoBlockPattern (gen_A 2 (div_features_into_blocks 2 (xDraws sUnbal 4))
    (div_features_into_blocks 2 (yDraws sUnbal 4 4))) = false
  rw [hxa, hya]
  decide

theorem abs_if_necessary_line (a : ℚ) : abs_if_necessary Assoc.line a = a := by
  simp [abs_if_necessary]

/-- C5 (amended): under the scenario parameters (samples=6,
xfeatures=4, yfeatures=4, blocks=2, association line, zero noise),
whenever the block-choice draws assign exactly two X-features and two
Y-features to each of the two blocks (both partitions equal
[[0, 1], [2, 3]]) and the sign draws are in {-1, 1}, every X row of a
block equals that block's base_X vector, every Y row of a block equals
one fixed sign times that block's base_Y vector, and A is exactly the
two 2 × 2 all-ones sub-blocks on rows/columns {0, 1} and {2, 3} with
zeros elsewhere. -/
theorem run_line_noiseless_balanced_blocks
    (s : RandStream) (lg : ℚ → ℚ) (X Y A : Nat → Nat → ℚ)
    (hx : div_features_into_blocks 2 (xDraws s 4) = [[0, 1], [2, 3]])
    (hy : div_features_into_blocks 2 (yDraws s 4 4) = [[0, 1], [2, 3]])
    (hsgn : ∀ k, s.sign k = -1 ∨ s.sign k = 1)
    (h : run_data_generator 6 (4, 4) 2 Assoc.line Dist.uniform 0 0 0 0 lg s =
      Except.ok (X, Y, A)) :
    (∀ k < 2, ∀ feat ∈ ([[0, 1], [2, 3]] : List (List Nat)).getD k [], ∀ t,
       X feat t = base_X 0 0 s.ortho s k t) ∧
    (∀ k < 2, ∃ sgn, (sgn = -1 ∨ sgn = 1) ∧
       ∀ feat ∈ ([[0, 1], [2, 3]] : List (List Nat)).getD k [], ∀ t,
         Y feat t = sgn * base_Y Assoc.line 0 0 s.ortho s k t) ∧
    (∀ i j, A i j = if (i < 2 ∧ j < 2) ∨ (2 ≤ i ∧ i < 4 ∧ 2 ≤ j ∧ j < 4) then 1 else 0) := by
  rw [run_data_generator] at h
  cases hcb : create_base 6 2 s.ortho with
  | error e => rw [hcb] at h; exact absurd h (by simp)
  | ok base0 =>
    rw [hcb] at h
    simp only [Except.ok.injEq, Prod.mk.injEq] at h
    obtain ⟨hX, hY, hA⟩ := h
    have hb0 : base0 = fun i t => s.ortho i t := by
      unfold create_base at hcb
      by_cases hok : gramOk 6 2 (fun i t => s.ortho i t) = true
      · rw [if_pos hok] at hcb
        simpa using hcb.symm
      · rw [if_neg hok] at hcb
        exact absurd hcb (by simp)
    have hbase : (fun i t => abs_if_necessary Assoc.line (base0 i t)) = s.ortho := by
      funext i t
      rw [abs_if_necessary_line, hb0]
    refine ⟨?_, ?_, ?_⟩
    · intro k hk feat hfeat t
      rw [← hX, hbase, hx]
      interval_cases k
      · have hf : feat = 0 ∨ feat = 1 := by simpa using hfeat
        rcases hf with hf | hf <;> subst hf <;>
          (rw [gen_X_eval_mem 2 0 0 0 0 s.ortho [[0, 1], [2, 3]] s _ t 0 (by decide) (by decide)
            (by decide)]; ring)
      · have hf : feat = 2 ∨ feat = 3 := by simpa using hfeat
        rcases hf with hf | hf <;> subst hf <;>
          (rw [gen_X_eval_mem 2 0 0 0 0 s.ortho [[0, 1], [2, 3]] s _ t 1 (by decide) (by decide)
            (by decide)]; ring)
    · intro k hk
      refine ⟨s.sign k, hsgn k, ?_⟩
      intro feat hfeat t
      rw [← hY, hbase, hy]
      interval_cases k
      · have hf : feat = 0 ∨ feat = 1 := by simpa using hfeat
        rcases hf with hf | hf <;> subst hf <;>
          (rw [gen_Y_line_eval_mem 2 lg 0 0 0 0 s.ortho [[0, 1], [2, 3]] s _ t 0 (by decide)
            (by decide) (by decide)]; ring)
      · have hf : feat = 2 ∨ feat = 3 := by simpa using hfeat
        rcases hf with hf | hf <;> subst hf <;>
          (rw [gen_Y_line_eval_mem 2 lg 0 0 0 0 s.ortho [[0, 1], [2, 3]] s _ t 1 (by decide)
            (by decide) (by decide)]; ring)
    · intro i j
      rw [← hA, hx, hy]
      unfold gen_A
      rw [gen_A_foldl_eval]
      have hiff : (∃ k ∈ List.range 2,
          i ∈ ([[0, 1], [2, 3]] : List (List Nat)).getD k [] ∧
          j ∈ ([[0, 1], [2, 3]] : List (List Nat)).getD k []) ↔
          ((i < 2 ∧ j < 2) ∨ (2 ≤ i ∧ i < 4 ∧ 2 ≤ j ∧ j < 4)) := by
        constructor
        · rintro ⟨k, hk, hik, hjk⟩
          have hk2 : k < 2 := List.mem_range.mp hk
          interval_cases k <;> simp_all <;> omega
        · rintro (⟨hi, hj⟩ | ⟨hi1, hi2, hj1, hj2⟩)
          · refine ⟨0, by decide, ?_, ?_⟩
            · have : i = 0 ∨ i = 1 := by omega
              simpa using this
            · have : j = 0 ∨ j = 1 := by omega
              simpa using this
          · refine ⟨1, by decide, ?_, ?_⟩
            · have : i = 2 ∨ i = 3 := by omega
              simpa using this
            · have : j = 2 ∨ j = 3 := by omega
              simpa using this
      by_cases hc : (i < 2 ∧ j < 2) ∨ (2 ≤ i ∧ i < 4 ∧ 2 ≤ j ∧ j < 4)
      · rw [if_pos (hiff.mpr hc), if_pos hc]
      · rw [if_neg (fun hcontra => hc (hiff.mp hcontra)), if_neg hc]

theorem gramOk_sBal : gramOk 6 2 (fun i t => sBal.ortho i t) = true := gramOk_sUnbal

theorem create_base_sBal :
    create_base 6 2 sBal.ortho = Except.ok (fun i t => sBal.ortho i t) := by
  unfold create_base
  rw [if_pos gramOk_sBal]

theorem run_sBal_eval :
    run_data_generator 6 (4, 4) 2 Assoc.line Dist.uniform 0 0 0 0 (fun q => q) sBal =
      Except.ok
        (gen_X 2 0 0 0 0 (fun i t => abs_if_necessary Assoc.line (sBal.ortho i t))
          (div_features_into_blocks 2 (xDraws sBal 4)) sBal,
         gen_Y 2 Assoc.line (fun q => q) 0 0 0 0
          (fun i t => abs_if_necessary Assoc.line (sBal.ortho i t))
          (div_features_into_blocks 2 (yDraws sBal 4 4)) sBal,
         gen_A 2 (div_features_into_blocks 2 (xDraws sBal 4))
          (div_features_into_blocks 2 (yDraws sBal 4 4))) := by
  unfold run_data_generator
  rw [create_base_sBal]

/-- Witness for the amended C5 at the concrete balanced stream `sBal`:
the hypotheses hold, feature 0's X row starts at block 0's base_X value
and A[0][3] is 0. -/
theorem run_line_noiseless_balanced_blocks_witness :
    getX (run_data_generator 6 (4, 4) 2 Assoc.line Dist.uniform 0 0 0 0 (fun q => q) sBal) 0 0 =
      base_X 0 0 sBal.ortho sBal 0 0 ∧
    getA (run_data_generator 6 (4, 4) 2 Assoc.line Dist.uniform 0 0 0 0 (fun q => q) sBal) 0 3
      = 0 := by
  have hrun : run_data_generator 6 (4, 4) 2 Assoc.line Dist.uniform 0 0 0 0 (fun q => q) sBal =
      Except.ok
        (getX (run_data_generator 6 (4, 4) 2 Assoc.line Dist.uniform 0 0 0 0 (fun q => q) sBal),
         getY (run_data_generator 6 (4, 4) 2 Assoc.line Dist.uniform 0 0 0 0 (fun q => q) sBal),
         getA (run_data_generator 6 (4, 4) 2 Assoc.line Dist.uniform 0 0 0 0 (fun q => q) sBal)) := by
    rw [run_sBal_eval]
    rfl
  have h := run_line_noiseless_balanced_blocks sBal (fun q => q)
    (getX (run_data_generator 6 (4, 4) 2 Assoc.line Dist.uniform 0 0 0 0 (fun q => q) sBal))
    (getY (run_data_generator 6 (4, 4) 2 Assoc.line Dist.uniform 0 0 0 0 (fun q => q) sBal))
    (getA (run_data_generator 6 (4, 4) 2 Assoc.line Dist.uniform 0 0 0 0 (fun q => q) sBal))
    (by decide) (by decide) (fun k => Or.inr rfl) hrun
  refine ⟨h.1 0 (by decide) 0 (by decide) 0, ?_⟩
  rw [h.2.2 0 3, if_neg (by omega)]

/-- C6 (divergence witness): the default block count is computed with
true division, so for xfeatures = yfeatures = 7 the code produces the
non-integral value 7/2 where the claim prescribes the integer
floor(7/2) = 3; for xfeatures = 10, yfeatures = 20 the two agree on 5. -/
theorem default_blocks_not_floored :
    default_blocks 7 7 = 7 / 2 ∧
    (default_blocks 7 7).den = 2 ∧
    (spec_default_blocks 7 7 : ℚ) = 3 ∧
    default_blocks 7 7 ≠ (spec_default_blocks 7 7 : ℚ) ∧
    default_blocks 10 20 = 5 := by
  have h1 : default_blocks 7 7 = 7 / 2 := by
    unfold default_blocks
    norm_num
  have h3 : (spec_default_blocks 7 7 : ℚ) = 3 := by
    unfold spec_default_blocks
    norm_num
  refine ⟨h1, by rw [h1]; norm_num, h3, by rw [h1, h3]; norm_num, ?_⟩
  unfold default_blocks
  norm_num

/-- C7: `parse_argument` rejects exactly the parameter vectors with a
non-positive sample count, a non-positive feature count, a block count
outside 1..min(xfeatures, yfeatures), or a noise level outside [0, 1]
(first conjunct); in particular a block count exceeding the sample
count but inside that range passes validation (second conjunct). -/
theorem parse_check_ok_iff (samples xfeatures yfeatures blocks : Int) (nw nb : ℚ) :
    (parse_check samples xfeatures yfeatures blocks nw nb = Except.ok () ↔
      ¬(samples ≤ 0 ∨ xfeatures ≤ 0 ∨ yfeatures ≤ 0 ∨
        ¬(1 ≤ blocks ∧ blocks ≤ min xfeatures yfeatures) ∨
        nw < 0 ∨ nw > 1 ∨ nb < 0 ∨ nb > 1)) ∧
    (0 < samples → samples < blocks → 1 ≤ blocks → blocks ≤ min xfeatures yfeatures →
      0 ≤ nw → nw ≤ 1 → 0 ≤ nb → nb ≤ 1 →
      parse_check samples xfeatures yfeatures blocks nw nb = Except.ok ()) := by
  have hb : (blocks > 0 ∧ blocks ≤ min xfeatures yfeatures) ↔
      (1 ≤ blocks ∧ blocks ≤ min xfeatures yfeatures) := by
    constructor <;> exact fun ⟨a, b⟩ => ⟨by omega, b⟩
  have hiff : parse_check samples xfeatures yfeatures blocks nw nb = Except.ok () ↔
      ¬(samples ≤ 0 ∨ xfeatures ≤ 0 ∨ yfeatures ≤ 0 ∨
        ¬(1 ≤ blocks ∧ blocks ≤ min xfeatures yfeatures) ∨
        nw < 0 ∨ nw > 1 ∨ nb < 0 ∨ nb > 1) := by
    unfold parse_check
    split_ifs with h1 h2 h3 h4
    · simp only [reduceCtorEq, false_iff]
      push_neg
      exact Or.inl h1
    · simp only [reduceCtorEq, false_iff]
      push_neg
      rcases h2 with h | h
      · exact Or.inr (Or.inl h)
      · exact Or.inr (Or.inr (Or.inl h))
    · simp only [reduceCtorEq, false_iff]
      push_neg
      rcases h4 with h | h | h | h
      · exact Or.inr (Or.inr (Or.inr (Or.inr (Or.inr (Or.inr (Or.inl h))))))
      · exact Or.inr (Or.inr (Or.inr (Or.inr (Or.inr (Or.inr (Or.inr h))))))
      · exact Or.inr (Or.inr (Or.inr (Or.inr (Or.inl h))))
      · exact Or.inr (Or.inr (Or.inr (Or.inr (Or.inr (Or.inl h)))))
    · refine iff_of_true rfl ?_
      push_neg at h4
      push_neg
      exact ⟨by omega, by omega, by omega, hb.mp h3, h4.2.2.1, h4.2.2.2, h4.1, h4.2.1⟩
    · simp only [reduceCtorEq, false_iff]
      push_neg
      refine Or.inr (Or.inr (Or.inr (Or.inl ?_)))
      intro hge
      by_contra hlt
      push_neg at hlt
      exact h3 ⟨by omega, by omega⟩
  refine ⟨hiff, fun h1 h2 h3 h4 h5 h6 h7 h8 => hiff.mpr ?_⟩
  push_neg
  exact ⟨by omega, by omega, by omega, ⟨h3, h4⟩, h5, h6, h7, h8⟩

/-- Witness for C7: samples = 2, xfeatures = yfeatures = 5, blocks = 4
(greater than the sample count but within 1..5) and noise levels 1/4
pass validation. -/
theorem parse_check_ok_iff_witness :
    parse_check 2 5 5 4 (1 / 4) (1 / 4) = Except.ok () :=
  (parse_check_ok_iff 2 5 5 4 (1 / 4) (1 / 4)).2 (by norm_num) (by norm_num) (by norm_num)
    (by norm_num) (by norm_num) (by norm_num) (by norm_num) (by norm_num)

/-- C8: with association log, the base_Y vector used for every block
is elementwise non-negative, because `abs_if_necessary` applies the
absolute value before the logarithm is taken; stated, as in the claim,
for runs with noise_between = 0. -/
theorem base_Y_log_nonneg (noise_between noise_between_std : ℚ) (base : Nat → Nat → ℚ)
    (s : RandStream) (k t : Nat) (hnb : noise_between = 0) :
    0 ≤ base_Y Assoc.log noise_between noise_between_std base s k t := by
  subst hnb
  unfold base_Y abs_if_necessary
  simp

/-- Witness for C8 at a negative base entry: base_Y is still
non-negative. -/
theorem base_Y_log_nonneg_witness :
    0 ≤ base_Y Assoc.log 0 0 (fun _ _ => -5) sOnes 0 0 :=
  base_Y_log_nonneg 0 0 (fun _ _ => -5) sOnes 0 0 rfl

/-- C9: generation is a deterministic function of the parameters and
the random stream — two runs with identical parameters and identical
draw streams return identical X, Y and A (or the identical error). -/
theorem run_data_generator_deterministic
    (sample_num x_feat_num y_feat_num block_num : Nat) (association : Assoc) (dist : Dist)
    (nw nb nws nbs : ℚ) (lg : ℚ → ℚ) (s₁ s₂ : RandStream) (h : s₁ = s₂) :
    run_data_generator sample_num (x_feat_num, y_feat_num) block_num association dist
        nw nb nws nbs lg s₁ =
      run_data_generator sample_num (x_feat_num, y_feat_num) block_num association dist
        nw nb nws nbs lg s₂ := by
  rw [h]

/-- Witness for C9 at a concrete stream. -/
theorem run_data_generator_deterministic_witness :
    run_data_generator 1 (1, 1) 1 Assoc.line Dist.uniform 0 0 0 0 (fun q => q) sOnes =
      run_data_generator 1 (1, 1) 1 Assoc.line Dist.uniform 0 0 0 0 (fun q => q) sOnes :=
  run_data_generator_deterministic 1 1 1 1 Assoc.line Dist.uniform 0 0 0 0 (fun q => q)
    sOnes sOnes rfl

/-- C10: the distribution parameter is accepted but never read by the
generation logic, so any two distribution values give identical X, Y
and A on the same remaining parameters and the same random stream. -/
theorem run_data_generator_dist_irrelevant
    (sample_num x_feat_num y_feat_num block_num : Nat) (association : Assoc) (d₁ d₂ : Dist)
    (nw nb nws nbs : ℚ) (lg : ℚ → ℚ) (s : RandStream) :
    run_data_generator sample_num (x_feat_num, y_feat_num) block_num association d₁
        nw nb nws nbs lg s =
      run_data_generator sample_num (x_feat_num, y_feat_num) block_num association d₂
        nw nb nws nbs lg s := rfl

end Halla
